import Mathlib

/-!
Verification of the checkly-operator control plane.

Part 1 embeds the startup wiring of `cmd/main.go` as a pure function from
the process inputs (flags, environment variables, and the success/failure
of each external setup call) to a trace recording which actions the
program performed before returning or exiting.

Part 2 models the reconciliation core (ReconcileLoop, FinalizerManager,
AnnotationScanner, DerivedResourceSynchronizer) from the specification,
since only `cmd/main.go` is available; the definitions are marked
`Modelled from the spec:`.
-/

namespace ChecklyOperator

/-! ## Part 1: embedding of cmd/main.go -/

/-- The checkly SDK client as constructed in `main.go`:
`checkly.NewClient(baseUrl, apiKey, nil, nil)` followed by
`client.SetAccountId(accountId)`. -/
structure ChecklyClient where
  baseUrl : String
  apiKey : String
  accountId : String
deriving DecidableEq, Repr

/-- The four controllers registered in `main.go`. -/
inductive ControllerKind where
  | ingress
  | apiCheck
  | group
  | alertChannel
deriving DecidableEq, Repr

/-- Fields of a reconciler struct as constructed in `main.go`; the
`Client`/`Scheme` fields come from the manager and are not modelled,
`ApiClient` is present only on the three checkly reconcilers. -/
structure ControllerSetup where
  kind : ControllerKind
  apiClient : Option ChecklyClient
  controllerDomain : String
deriving DecidableEq, Repr

/-- The sites in `main.go` at which `os.Exit(1)` is called. -/
inductive ExitStage where
  | newManager
  | apiKeyMissing
  | accountIdMissing
  | ingressSetup
  | apiCheckSetup
  | groupSetup
  | alertChannelSetup
  | healthz
  | readyz
  | managerRun
deriving DecidableEq, Repr

/-- Inputs to `main`: flag values, environment variables, and whether each
fallible external call (manager creation, each `SetupWithManager`, the
health endpoints, `mgr.Start`) returns an error. -/
structure MainInput where
  controllerDomainFlag : Option String
  apiKey : String
  accountId : String
  newManagerFails : Bool
  ingressSetupFails : Bool
  apiCheckSetupFails : Bool
  groupSetupFails : Bool
  alertChannelSetupFails : Bool
  healthzFails : Bool
  readyzFails : Bool
  managerRunFails : Bool
deriving DecidableEq, Repr

/-- Observable trace of one run of `main`: the resolved controller domain,
whether the manager object was created, the API client if one was built,
the controllers whose `SetupWithManager` succeeded (in registration
order), whether `mgr.Start` was invoked, and the `os.Exit(1)` site if the
process exited on error. -/
structure MainTrace where
  controllerDomain : String
  managerCreated : Bool
  clientCreated : Option ChecklyClient
  controllersRegistered : List ControllerSetup
  managerStarted : Bool
  exit : Option ExitStage
deriving DecidableEq, Repr

/-- Default of the `controller-domain` flag in `main.go`. -/
def defaultControllerDomain : String := "k8s.checklyhq.com"

/-- `baseUrl` constant in `main.go`. -/
def checklyBaseUrl : String := "https://api.checklyhq.com"

/-- Every `os.Exit` call in `main.go` passes status 1. -/
def exitCode (t : MainTrace) : Option Nat := t.exit.map (fun _ => 1)

/-- Embedding of `main` from `cmd/main.go`: flag parsing, manager
creation, credential checks, client construction, the four controller
registrations, health endpoints, and `mgr.Start`, in source order, each
fallible step exiting with status 1 on error. -/
def runMain (env : MainInput) : MainTrace :=
  let domain := env.controllerDomainFlag.getD defaultControllerDomain
  if env.newManagerFails then
    { controllerDomain := domain, managerCreated := false, clientCreated := none,
      controllersRegistered := [], managerStarted := false, exit := some .newManager }
  else if env.apiKey = "" then
    { controllerDomain := domain, managerCreated := true, clientCreated := none,
      controllersRegistered := [], managerStarted := false, exit := some .apiKeyMissing }
  else if env.accountId = "" then
    { controllerDomain := domain, managerCreated := true, clientCreated := none,
      controllersRegistered := [], managerStarted := false, exit := some .accountIdMissing }
  else
    let client : ChecklyClient :=
      { baseUrl := checklyBaseUrl, apiKey := env.apiKey, accountId := env.accountId }
    let ingressC : ControllerSetup :=
      { kind := .ingress, apiClient := none, controllerDomain := domain }
    let apiCheckC : ControllerSetup :=
      { kind := .apiCheck, apiClient := some client, controllerDomain := domain }
    let groupC : ControllerSetup :=
      { kind := .group, apiClient := some client, controllerDomain := domain }
    let alertChannelC : ControllerSetup :=
      { kind := .alertChannel, apiClient := some client, controllerDomain := domain }
    if env.ingressSetupFails then
      { controllerDomain := domain, managerCreated := true, clientCreated := some client,
        controllersRegistered := [], managerStarted := false, exit := some .ingressSetup }
    else if env.apiCheckSetupFails then
      { controllerDomain := domain, managerCreated := true, clientCreated := some client,
        controllersRegistered := [ingressC], managerStarted := false,
        exit := some .apiCheckSetup }
    else if env.groupSetupFails then
      { controllerDomain := domain, managerCreated := true, clientCreated := some client,
        controllersRegistered := [ingressC, apiCheckC], managerStarted := false,
        exit := some .groupSetup }
    else if env.alertChannelSetupFails then
      { controllerDomain := domain, managerCreated := true, clientCreated := some client,
        controllersRegistered := [ingressC, apiCheckC, groupC], managerStarted := false,
        exit := some .alertChannelSetup }
    else if env.healthzFails then
      { controllerDomain := domain, managerCreated := true, clientCreated := some client,
        controllersRegistered := [ingressC, apiCheckC, groupC, alertChannelC],
        managerStarted := false, exit := some .healthz }
    else if env.readyzFails then
      { controllerDomain := domain, managerCreated := true, clientCreated := some client,
        controllersRegistered := [ingressC, apiCheckC, groupC, alertChannelC],
        managerStarted := false, exit := some .readyz }
    else if env.managerRunFails then
      { controllerDomain := domain, managerCreated := true, clientCreated := some client,
        controllersRegistered := [ingressC, apiCheckC, groupC, alertChannelC],
        managerStarted := true, exit := some .managerRun }
    else
      { controllerDomain := domain, managerCreated := true, clientCreated := some client,
        controllersRegistered := [ingressC, apiCheckC, groupC, alertChannelC],
        managerStarted := true, exit := none }

/-! ## Part 2: reconciliation core, modelled from the spec

Only `cmd/main.go` is among the available sources; the reconcilers it
constructs (`internal/controller/checkly`, `internal/controller/networking`)
and the API types (`api/checkly/v1alpha1`) are not. The definitions below
are therefore modelled from the specification (sections 3-7), faithful to
its words, and each is marked accordingly. -/

/-- Modelled from the spec: section 3 / section 4.1 — the desired
external-facing configuration of a Check (URL, frequency); the real spec
type lives in `api/checkly/v1alpha1`, which is missing from the sources. -/
structure CheckSpec where
  url : String
  frequency : Nat
deriving DecidableEq, Repr

/-- Modelled from the spec: section 4.1 — the external representation of a
check, as sent to and read from the external monitoring API. -/
structure ExternalRep where
  url : String
  frequency : Nat
deriving DecidableEq, Repr

/-- Modelled from the spec: section 4.1 ResourceMapper `toExternal` — pure,
deterministic, total over valid specs; a terminal validation error (not a
transport error) for an invalid spec (missing required field). -/
def toExternal (s : CheckSpec) : Except String ExternalRep :=
  if s.url = "" then .error "missing required field: url"
  else .ok { url := s.url, frequency := s.frequency }

/-- Modelled from the spec: section 3 DeclaredResource — spec, status
externalId, deletion flag, finalizer set, generation. -/
structure DeclaredResource where
  spec : CheckSpec
  externalId : Option String
  deletionRequested : Bool
  finalizers : List String
  generation : Nat
deriving DecidableEq, Repr

/-- Whether the finalizer named `f` is present on the object. -/
def hasFinalizer (f : String) (o : DeclaredResource) : Bool :=
  o.finalizers.contains f

/-- Modelled from the spec: section 6 — the external monitoring API state,
a map from externalId to representation, plus a counter for the ids that
`create` returns. -/
structure ExternalState where
  resources : List (String × ExternalRep)
  nextId : Nat
deriving DecidableEq, Repr

/-- Read the external state at an id (the boundary `read`:
representation or NotFound). -/
def extLookup (e : ExternalState) (id : String) : Option ExternalRep :=
  e.resources.lookup id

/-- External write calls the core can issue (reads are recorded
separately; they are not writes). -/
inductive ApiCall where
  | create (rep : ExternalRep)
  | update (id : String) (rep : ExternalRep)
  | delete (id : String)
deriving DecidableEq, Repr

/-- Outcome classification of one reconcile invocation, per the section 7
taxonomy: success, retryable transient failure, or terminal validation
failure for the current generation. Every value is object-scoped; none
denotes process termination. -/
inductive ReconcileResult where
  | ok
  | retryTransient
  | invalidSpec
deriving DecidableEq, Repr

/-- Fault injection for the external boundary: whether each call made in
this invocation fails with a section 7 TransientError. -/
structure Faults where
  createTransient : Bool
  readTransient : Bool
  updateTransient : Bool
  deleteTransient : Bool
deriving DecidableEq, Repr

/-- Result of one reconcile invocation: the written-back object, the
external state, the external write calls issued, the ids read, and the
object-scoped result. -/
structure ReconcileOutcome where
  obj : DeclaredResource
  ext : ExternalState
  writes : List ApiCall
  reads : List String
  result : ReconcileResult
deriving DecidableEq, Repr

/-- Modelled from the spec: section 4.2 ReconcileLoop, one invocation.
Step 1: if deletion is requested and the finalizer is present, delete the
external resource by externalId (a no-op success when externalId is empty;
NotFound from the external side is likewise success), then clear
externalId and remove the finalizer; a transient failure leaves the object
unchanged and is retryable. Step 2: if not deleting and the finalizer is
absent, add the finalizer. Step 3: compute the desired representation; on
a validation error set the terminal invalid-spec result; with no
externalId, create and store the returned id; with an externalId, read the
current external state and no-op when it equals the desired
representation, else update. An externally-vanished resource is recreated
(drift correction, section 5). -/
def reconcile (f : String) (flt : Faults) (o : DeclaredResource) (e : ExternalState) :
    ReconcileOutcome :=
  if o.deletionRequested then
    if hasFinalizer f o then
      match o.externalId with
      | none =>
        { obj := { o with finalizers := o.finalizers.filter (fun g => g ≠ f) },
          ext := e, writes := [], reads := [], result := .ok }
      | some id =>
        if flt.deleteTransient then
          { obj := o, ext := e, writes := [.delete id], reads := [],
            result := .retryTransient }
        else
          let cleaned :=
            { o with externalId := none,
                     finalizers := o.finalizers.filter (fun g => g ≠ f) }
          { obj := cleaned,
            ext := { e with resources := e.resources.filter (fun p => p.1 ≠ id) },
            writes := [.delete id], reads := [], result := .ok }
    else
      { obj := o, ext := e, writes := [], reads := [], result := .ok }
  else if hasFinalizer f o then
    match toExternal o.spec with
    | .error _ =>
      { obj := o, ext := e, writes := [], reads := [], result := .invalidSpec }
    | .ok rep =>
      match o.externalId with
      | none =>
        if flt.createTransient then
          { obj := o, ext := e, writes := [.create rep], reads := [],
            result := .retryTransient }
        else
          { obj := { o with externalId := some ("ext-" ++ toString e.nextId) },
            ext := { resources := ("ext-" ++ toString e.nextId, rep) :: e.resources,
                     nextId := e.nextId + 1 },
            writes := [.create rep], reads := [], result := .ok }
      | some id =>
        if flt.readTransient then
          { obj := o, ext := e, writes := [], reads := [id], result := .retryTransient }
        else
          match extLookup e id with
          | some cur =>
            if cur = rep then
              { obj := o, ext := e, writes := [], reads := [id], result := .ok }
            else if flt.updateTransient then
              { obj := o, ext := e, writes := [.update id rep], reads := [id],
                result := .retryTransient }
            else
              { obj := o,
                ext := { e with resources :=
                  e.resources.map (fun p => if p.1 = id then (id, rep) else p) },
                writes := [.update id rep], reads := [id], result := .ok }
          | none =>
            if flt.createTransient then
              { obj := o, ext := e, writes := [.create rep], reads := [id],
                result := .retryTransient }
            else
              { obj := { o with externalId := some ("ext-" ++ toString e.nextId) },
                ext := { resources := ("ext-" ++ toString e.nextId, rep) :: e.resources,
                         nextId := e.nextId + 1 },
                writes := [.create rep], reads := [id], result := .ok }
  else
    { obj := { o with finalizers := f :: o.finalizers },
      ext := e, writes := [], reads := [], result := .ok }

/-- Modelled from the spec: section 4.3 FinalizerManager — the store may
physically remove an object only when deletion is requested and the
finalizer is gone. -/
def canRemove (f : String) (o : DeclaredResource) : Bool :=
  o.deletionRequested && !(hasFinalizer f o)

/-- The cluster-visible state of one declarative resource: present in the
store with the current external state, or physically removed. -/
inductive SysState where
  | present (o : DeclaredResource) (e : ExternalState)
  | absent (e : ExternalState)

/-- Modelled from the spec: sections 4.2/4.3/5 — transitions of one
declarative resource: a reconcile invocation (with any fault injection),
an author edit of the spec bumping the generation, a deletion request, and
physical removal by the store, gated on `canRemove` (the FinalizerManager
ordering guarantee). -/
inductive SysStep (f : String) : SysState → SysState → Prop where
  | recon (flt : Faults) (o : DeclaredResource) (e : ExternalState) :
      SysStep f (.present o e)
        (.present (reconcile f flt o e).obj (reconcile f flt o e).ext)
  | edit (o : DeclaredResource) (e : ExternalState) (sp : CheckSpec) (g : Nat) :
      SysStep f (.present o e) (.present { o with spec := sp, generation := g } e)
  | requestDeletion (o : DeclaredResource) (e : ExternalState) :
      SysStep f (.present o e) (.present { o with deletionRequested := true } e)
  | remove (o : DeclaredResource) (e : ExternalState) :
      canRemove f o = true → SysStep f (.present o e) (.absent e)

/-- The ordering invariant behind finalizer gating: while our finalizer is
absent, no external resource is recorded on the object. -/
def finalizerGuard (f : String) (o : DeclaredResource) : Prop :=
  hasFinalizer f o = true ∨ o.externalId = none

/-! ## Part 3: derived resources, modelled from the spec -/

/-- A host/path rule of an ingress object. -/
structure IngressRule where
  host : String
  path : String
deriving DecidableEq, Repr

/-- Modelled from the spec: section 3 IngressSource — namespaced identity,
a rule set, and an annotation map; read-only to this system. -/
structure IngressSource where
  name : String
  ns : String
  anns : List (String × String)
  rules : List IngressRule
deriving DecidableEq, Repr

/-- Look up one key in an annotation map. -/
def annLookup (anns : List (String × String)) (k : String) : Option String :=
  anns.lookup k

/-- Modelled from the spec: section 4.4 AnnotationScanner — a pure
function of (rules, annotation map) keyed by the configured domain prefix;
one candidate Check spec per rule, with a per-rule frequency override
falling back to the ingress-wide value; a malformed value excludes only
that rule, never the whole scan. Rules are keyed by their index. -/
def annotationScanner (domain : String) (anns : List (String × String))
    (rules : List IngressRule) : List (Nat × CheckSpec) :=
  if annLookup anns (domain ++ "/enabled") = some "true" then
    rules.enum.filterMap fun p =>
      let freqStr := (annLookup anns (domain ++ "/frequency-rule-" ++ toString p.1)).getD
        ((annLookup anns (domain ++ "/frequency")).getD "60")
      match freqStr.toNat? with
      | none => none
      | some fr => some (p.1, { url := "https://" ++ p.2.host ++ p.2.path, frequency := fr })
  else []

/-- Modelled from the spec: section 3 — the stable owner back-reference of
a derived check, a deterministic function of (ingress identity, rule key). -/
structure OwnerKey where
  ingressName : String
  ingressNs : String
  ruleKey : Nat
deriving DecidableEq, Repr

/-- Modelled from the spec: section 3 DerivedCheck — a Check whose
lifecycle is owned by an ingress rule, carrying the owner back-reference. -/
structure DerivedCheck where
  owner : OwnerKey
  spec : CheckSpec
  deletionRequested : Bool
deriving DecidableEq, Repr

/-- Association-list lookup by owner key. -/
def lookupKey (k : OwnerKey) : List (OwnerKey × CheckSpec) → Option CheckSpec
  | [] => none
  | p :: rest => if p.1 = k then some p.2 else lookupKey k rest

/-- Modelled from the spec: section 4.5 — the desired set of derived
checks: the image of the AnnotationScanner over all present ingress
objects, keyed by owner-key. -/
def desiredDerived (domain : String) (ings : List IngressSource) :
    List (OwnerKey × CheckSpec) :=
  ings.flatMap fun ing =>
    (annotationScanner domain ing.anns ing.rules).map fun p =>
      ({ ingressName := ing.name, ingressNs := ing.ns, ruleKey := p.1 }, p.2)

/-- Modelled from the spec: section 4.5 DerivedResourceSynchronizer — one
synchronization pass: diff the currently-owned derived checks against the
desired set by owner-key; keep and update the ones still desired, mark the
no-longer-desired ones for deletion (the ReconcileLoop finalizer path
performs the cleanup), and create the missing ones. -/
def syncStep (domain : String) (ings : List IngressSource)
    (current : List DerivedCheck) : List DerivedCheck :=
  let desired := desiredDerived domain ings
  let kept := current.map fun d =>
    match lookupKey d.owner desired with
    | some sp => { d with spec := sp }
    | none => { d with deletionRequested := true }
  let created := (desired.filter fun p =>
      !(current.any fun d => decide (d.owner = p.1))).map fun p =>
    { owner := p.1, spec := p.2, deletionRequested := false }
  kept ++ created

/-- Modelled from the spec: sections 4.2/4.5 — after quiescence, every
deletion-marked derived check has been cleaned up and removed by the
ReconcileLoop finalizer path; the live set is what remains. -/
def quiesce (l : List DerivedCheck) : List DerivedCheck :=
  l.filter fun d => !d.deletionRequested

/-! ## Concrete sample inputs used by witnesses -/

/-- A process input with valid credentials and no failing external call. -/
def goodInput : MainInput :=
  { controllerDomainFlag := none, apiKey := "key-1", accountId := "acct-1",
    newManagerFails := false, ingressSetupFails := false, apiCheckSetupFails := false,
    groupSetupFails := false, alertChannelSetupFails := false, healthzFails := false,
    readyzFails := false, managerRunFails := false }

/-- A process input whose only failure is manager creation. -/
def newManagerFailInput : MainInput :=
  { goodInput with newManagerFails := true }

/-- A process input whose only failure is the manager run itself. -/
def managerRunFailInput : MainInput :=
  { goodInput with managerRunFails := true }

/-- A process input with an empty CHECKLY_API_KEY. -/
def noKeyInput : MainInput :=
  { goodInput with apiKey := "" }

/-- A converged sample: finalizer present, external resource ext-1 equal
to the desired representation of the spec. -/
def syncedObj : DeclaredResource :=
  { spec := { url := "https://a.example/health", frequency := 60 },
    externalId := some "ext-1", deletionRequested := false,
    finalizers := ["k8s.checklyhq.com/finalizer"], generation := 1 }

/-- External state holding exactly ext-1 with the representation of
`syncedObj.spec`. -/
def syncedExt : ExternalState :=
  { resources := [("ext-1", { url := "https://a.example/health", frequency := 60 })],
    nextId := 2 }

/-- The all-clear fault injection: every external call succeeds. -/
def noFaults : Faults :=
  { createTransient := false, readTransient := false,
    updateTransient := false, deleteTransient := false }

/-- A deletion-requested sample whose externalId points at nothing. -/
def staleDeleteObj : DeclaredResource :=
  { spec := { url := "https://a.example/health", frequency := 60 },
    externalId := some "ext-9", deletionRequested := true,
    finalizers := ["k8s.checklyhq.com/finalizer"], generation := 3 }

/-- A fresh sample object before any reconcile: no finalizer, no external
resource. -/
def freshObj : DeclaredResource :=
  { spec := { url := "https://a.example/health", frequency := 60 },
    externalId := none, deletionRequested := false,
    finalizers := [], generation := 1 }

/-- A removable sample: deletion requested, no finalizer, no externalId. -/
def removableObj : DeclaredResource :=
  { freshObj with deletionRequested := true }

/-- An empty external state. -/
def emptyExt : ExternalState := { resources := [], nextId := 0 }

/-- A sample ingress with the enabling annotation and one rule. -/
def ingB : IngressSource :=
  { name := "ingress-b", ns := "default",
    anns := [("k8s.checklyhq.com/enabled", "true")],
    rules := [{ host := "b.example", path := "/" }] }

/-- The owner key of the single derived check of `ingB`. -/
def ownerB : OwnerKey :=
  { ingressName := "ingress-b", ingressNs := "default", ruleKey := 0 }

/-! ## Theorems about the startup wiring (cmd/main.go) -/

/-- On a run where no external setup call fails and both credentials are
nonempty, `main` builds exactly one client and registers the four
controllers in source order with the shared client and domain. Helper
shared by the wiring theorems. -/
theorem runMain_success_fields (env : MainInput)
    (h1 : env.newManagerFails = false) (h2 : ¬ env.apiKey = "")
    (h3 : ¬ env.accountId = "") (h4 : env.ingressSetupFails = false)
    (h5 : env.apiCheckSetupFails = false) (h6 : env.groupSetupFails = false)
    (h7 : env.alertChannelSetupFails = false) (h8 : env.healthzFails = false)
    (h9 : env.readyzFails = false) :
    (runMain env).clientCreated =
      some { baseUrl := checklyBaseUrl, apiKey := env.apiKey,
             accountId := env.accountId } ∧
    (runMain env).controllersRegistered =
      [{ kind := .ingress, apiClient := none,
         controllerDomain := env.controllerDomainFlag.getD defaultControllerDomain },
       { kind := .apiCheck,
         apiClient := some { baseUrl := checklyBaseUrl, apiKey := env.apiKey,
                             accountId := env.accountId },
         controllerDomain := env.controllerDomainFlag.getD defaultControllerDomain },
       { kind := .group,
         apiClient := some { baseUrl := checklyBaseUrl, apiKey := env.apiKey,
                             accountId := env.accountId },
         controllerDomain := env.controllerDomainFlag.getD defaultControllerDomain },
       { kind := .alertChannel,
         apiClient := some { baseUrl := checklyBaseUrl, apiKey := env.apiKey,
                             accountId := env.accountId },
         controllerDomain := env.controllerDomainFlag.getD defaultControllerDomain }] := by
  cases hr : env.managerRunFails <;>
    simp [runMain, h1, h2, h3, h4, h5, h6, h7, h8, h9, hr]

/-- C5: on a successful startup, `main` registers exactly one reconciler
per declarative-resource kind — ApiCheck, Group, AlertChannel — plus the
Ingress reconciler feeding the same Check loop, all with the manager. -/
theorem one_reconciler_per_kind (env : MainInput)
    (h1 : env.newManagerFails = false) (h2 : ¬ env.apiKey = "")
    (h3 : ¬ env.accountId = "") (h4 : env.ingressSetupFails = false)
    (h5 : env.apiCheckSetupFails = false) (h6 : env.groupSetupFails = false)
    (h7 : env.alertChannelSetupFails = false) (h8 : env.healthzFails = false)
    (h9 : env.readyzFails = false) :
    (runMain env).controllersRegistered.map ControllerSetup.kind =
      [.ingress, .apiCheck, .group, .alertChannel] ∧
    ((runMain env).controllersRegistered.map ControllerSetup.kind).count
      ControllerKind.apiCheck = 1 ∧
    ((runMain env).controllersRegistered.map ControllerSetup.kind).count
      ControllerKind.group = 1 ∧
    ((runMain env).controllersRegistered.map ControllerSetup.kind).count
      ControllerKind.alertChannel = 1 := by
  have h := (runMain_success_fields env h1 h2 h3 h4 h5 h6 h7 h8 h9).2
  rw [h]
  refine ⟨rfl, ?_, ?_, ?_⟩ <;> rfl

/-- C5 witness at a concrete successful input. -/
theorem one_reconciler_per_kind_witness :
    (runMain goodInput).controllersRegistered.map ControllerSetup.kind =
      [.ingress, .apiCheck, .group, .alertChannel] :=
  (one_reconciler_per_kind goodInput rfl (by decide) (by decide) rfl rfl rfl rfl rfl
    rfl).1

/-- C6: on a successful startup a single client, built from the base URL
constant and the two environment credentials, is the one injected into
each of the three declarative-kind reconcilers; the ingress reconciler
gets none. -/
theorem single_client_injected (env : MainInput)
    (h1 : env.newManagerFails = false) (h2 : ¬ env.apiKey = "")
    (h3 : ¬ env.accountId = "") (h4 : env.ingressSetupFails = false)
    (h5 : env.apiCheckSetupFails = false) (h6 : env.groupSetupFails = false)
    (h7 : env.alertChannelSetupFails = false) (h8 : env.healthzFails = false)
    (h9 : env.readyzFails = false) :
    (runMain env).clientCreated =
      some { baseUrl := checklyBaseUrl, apiKey := env.apiKey,
             accountId := env.accountId } ∧
    ∀ c ∈ (runMain env).controllersRegistered, c.kind ≠ .ingress →
      c.apiClient = (runMain env).clientCreated := by
  obtain ⟨hc, hr⟩ := runMain_success_fields env h1 h2 h3 h4 h5 h6 h7 h8 h9
  refine ⟨hc, ?_⟩
  rw [hr, hc]
  intro c hmem hk
  simp only [List.mem_cons, List.not_mem_nil, or_false] at hmem
  rcases hmem with h | h | h | h <;> subst h <;> first | rfl | exact absurd rfl hk

/-- C6 witness at a concrete successful input. -/
theorem single_client_injected_witness :
    ({ kind := .apiCheck,
       apiClient := some { baseUrl := checklyBaseUrl, apiKey := "key-1",
                           accountId := "acct-1" },
       controllerDomain := defaultControllerDomain } : ControllerSetup).apiClient =
      (runMain goodInput).clientCreated :=
  (single_client_injected goodInput rfl (by decide) (by decide) rfl rfl rfl rfl rfl
      rfl).2
    { kind := .apiCheck,
      apiClient := some { baseUrl := checklyBaseUrl, apiKey := "key-1",
                          accountId := "acct-1" },
      controllerDomain := defaultControllerDomain }
    (by decide) (by decide)

/-- C8: the controller domain is the `controller-domain` flag value,
defaulting to k8s.checklyhq.com, and the identical string is handed to
every controller `main` registers, on every execution path. -/
theorem controller_domain_uniform (env : MainInput) :
    (runMain env).controllerDomain =
      env.controllerDomainFlag.getD defaultControllerDomain ∧
    ∀ c ∈ (runMain env).controllersRegistered,
      c.controllerDomain = (runMain env).controllerDomain := by
  by_cases h1 : env.newManagerFails = true
  · simp [runMain, h1]
  · by_cases h2 : env.apiKey = ""
    · simp [runMain, h1, h2]
    · by_cases h3 : env.accountId = ""
      · simp [runMain, h1, h2, h3]
      · by_cases h4 : env.ingressSetupFails = true
        · simp [runMain, h1, h2, h3, h4]
        · by_cases h5 : env.apiCheckSetupFails = true
          · simp [runMain, h1, h2, h3, h4, h5]
          · by_cases h6 : env.groupSetupFails = true
            · simp [runMain, h1, h2, h3, h4, h5, h6]
            · by_cases h7 : env.alertChannelSetupFails = true
              · simp [runMain, h1, h2, h3, h4, h5, h6, h7]
              · by_cases h8 : env.healthzFails = true
                · simp [runMain, h1, h2, h3, h4, h5, h6, h7, h8]
                · by_cases h9 : env.readyzFails = true
                  · simp [runMain, h1, h2, h3, h4, h5, h6, h7, h8, h9]
                  · by_cases h10 : env.managerRunFails = true
                    · simp [runMain, h1, h2, h3, h4, h5, h6, h7, h8, h9, h10]
                    · simp [runMain, h1, h2, h3, h4, h5, h6, h7, h8, h9, h10]

/-- C8 witness: with the flag unset the default domain reaches a
registered controller verbatim. -/
theorem controller_domain_uniform_witness :
    ({ kind := .ingress, apiClient := none,
       controllerDomain := "k8s.checklyhq.com" } : ControllerSetup).controllerDomain =
      (runMain goodInput).controllerDomain :=
  (controller_domain_uniform goodInput).2
    { kind := .ingress, apiClient := none, controllerDomain := "k8s.checklyhq.com" }
    (by decide)

/-- C9: with the manager created, an empty CHECKLY_API_KEY or
CHECKLY_ACCOUNT_ID makes `main` exit with status 1 at the corresponding
credentials check, before any client is built, any controller is
registered, or the manager is started. -/
theorem missing_credentials_exit (env : MainInput)
    (hm : env.newManagerFails = false)
    (h : env.apiKey = "" ∨ env.accountId = "") :
    exitCode (runMain env) = some 1 ∧
    ((runMain env).exit = some .apiKeyMissing ∨
      (runMain env).exit = some .accountIdMissing) ∧
    (runMain env).clientCreated = none ∧
    (runMain env).controllersRegistered = [] ∧
    (runMain env).managerStarted = false := by
  by_cases hk : env.apiKey = ""
  · simp [runMain, exitCode, hm, hk]
  · rcases h with h | h
    · exact absurd h hk
    · simp [runMain, exitCode, hm, hk, h]

/-- C9 witness at a concrete input with an empty API key. -/
theorem missing_credentials_exit_witness :
    exitCode (runMain noKeyInput) = some 1 ∧
    ((runMain noKeyInput).exit = some .apiKeyMissing ∨
      (runMain noKeyInput).exit = some .accountIdMissing) ∧
    (runMain noKeyInput).clientCreated = none ∧
    (runMain noKeyInput).controllersRegistered = [] ∧
    (runMain noKeyInput).managerStarted = false :=
  missing_credentials_exit noKeyInput rfl (Or.inl rfl)

/-- C10: among the controllers `main` registers, precisely the Ingress
reconciler is constructed without an API client; the three declarative
kinds each hold one. -/
theorem ingress_reconciler_no_api_client (env : MainInput)
    (h1 : env.newManagerFails = false) (h2 : ¬ env.apiKey = "")
    (h3 : ¬ env.accountId = "") (h4 : env.ingressSetupFails = false)
    (h5 : env.apiCheckSetupFails = false) (h6 : env.groupSetupFails = false)
    (h7 : env.alertChannelSetupFails = false) (h8 : env.healthzFails = false)
    (h9 : env.readyzFails = false) :
    ∀ c ∈ (runMain env).controllersRegistered,
      (c.apiClient = none ↔ c.kind = .ingress) := by
  have h := (runMain_success_fields env h1 h2 h3 h4 h5 h6 h7 h8 h9).2
  rw [h]
  intro c hmem
  simp only [List.mem_cons, List.not_mem_nil, or_false] at hmem
  rcases hmem with h | h | h | h <;> subst h <;> simp

/-- C10 witness: the registered ingress controller setup has no client. -/
theorem ingress_reconciler_no_api_client_witness :
    (({ kind := .ingress, apiClient := none,
        controllerDomain := defaultControllerDomain } : ControllerSetup).apiClient =
        none ↔
      ({ kind := .ingress, apiClient := none,
         controllerDomain := defaultControllerDomain } : ControllerSetup).kind =
        .ingress) :=
  ingress_reconciler_no_api_client goodInput rfl (by decide) (by decide) rfl rfl rfl
    rfl rfl rfl
    { kind := .ingress, apiClient := none, controllerDomain := defaultControllerDomain }
    (by decide)

/-- C7 counterexample: with valid credentials and every setup step
succeeding, a failing manager run makes `main` call os.Exit(1) after
`mgr.Start` was invoked — so exit-on-error is not confined to startup
wiring before the manager begins reconciling. -/
theorem exit_after_manager_started :
    (runMain managerRunFailInput).managerStarted = true ∧
    exitCode (runMain managerRunFailInput) = some 1 := by
  constructor <;> rfl

/-- C7 (amended): every os.Exit(1) site in `main` is either reached
before `mgr.Start` is invoked (startup wiring: manager creation,
credential checks, controller registration, health endpoints) or is the
single site handling an error returned by the manager run itself; no
reconcile-time error of the section 7 taxonomy is among them, every
reconcile invocation yielding only an object-scoped result. -/
theorem exit_on_error_stages (env : MainInput) (s : ExitStage)
    (h : (runMain env).exit = some s) :
    s = .managerRun ∨ (runMain env).managerStarted = false := by
  by_cases h1 : env.newManagerFails = true
  · simp_all [runMain]
  · by_cases h2 : env.apiKey = ""
    · simp_all [runMain]
    · by_cases h3 : env.accountId = ""
      · simp_all [runMain]
      · by_cases h4 : env.ingressSetupFails = true
        · simp_all [runMain]
        · by_cases h5 : env.apiCheckSetupFails = true
          · simp_all [runMain]
          · by_cases h6 : env.groupSetupFails = true
            · simp_all [runMain]
            · by_cases h7 : env.alertChannelSetupFails = true
              · simp_all [runMain]
              · by_cases h8 : env.healthzFails = true
                · simp_all [runMain]
                · by_cases h9 : env.readyzFails = true
                  · simp_all [runMain]
                  · by_cases h10 : env.managerRunFails = true
                    · simp_all [runMain]
                    · simp_all [runMain]

/-- C7 amended-claim witness: manager-creation failure exits before the
manager is started. -/
theorem exit_on_error_stages_witness :
    ExitStage.newManager = ExitStage.managerRun ∨
      (runMain newManagerFailInput).managerStarted = false :=
  exit_on_error_stages newManagerFailInput .newManager rfl

/-! ## Theorems about the reconcile loop (modelled from the spec) -/

/-- Removing all occurrences of a finalizer name leaves a list not
containing it. -/
theorem contains_filter_ne (l : List String) (f : String) :
    (l.filter fun g => g ≠ f).contains f = false := by
  induction l with
  | nil => rfl
  | cons a t ih =>
    by_cases h : a = f
    · simp [List.filter_cons, h, ih]
    · simp [List.filter_cons, h, ih, Ne.symm h]

/-- C1: a reconcile invocation on a converged (Synced) object — not being
deleted, finalizer present, valid spec, externalId recorded, and the
current external representation equal to the desired one — issues zero
external write calls and leaves both the object and the external state
untouched, for every fault injection. -/
theorem reconcile_synced_no_external_writes (f : String) (flt : Faults)
    (o : DeclaredResource) (e : ExternalState) (id : String) (rep : ExternalRep)
    (hdel : o.deletionRequested = false) (hfin : hasFinalizer f o = true)
    (hid : o.externalId = some id) (hrep : toExternal o.spec = Except.ok rep)
    (hcur : extLookup e id = some rep) :
    (reconcile f flt o e).writes = [] ∧ (reconcile f flt o e).obj = o ∧
      (reconcile f flt o e).ext = e := by
  cases hrt : flt.readTransient <;>
    simp [reconcile, hdel, hfin, hid, hrep, hcur, hrt]

/-- C1 witness: the concrete converged sample issues no writes. -/
theorem reconcile_synced_no_external_writes_witness :
    syncedObj.deletionRequested = false ∧
      (reconcile "k8s.checklyhq.com/finalizer" noFaults syncedObj syncedExt).writes =
        [] :=
  ⟨rfl,
    (reconcile_synced_no_external_writes "k8s.checklyhq.com/finalizer" noFaults
        syncedObj syncedExt "ext-1"
        { url := "https://a.example/health", frequency := 60 } rfl (by decide) rfl rfl
        rfl).1⟩

/-- C4: on the deletion path (deletion requested, finalizer present) with
no transient fault, an empty externalId or an externalId the external side
no longer knows (NotFound on delete) is success, not an error: the result
is ok, the finalizer is removed and externalId is cleared, so deletion
proceeds and is safe to retry. -/
theorem delete_notfound_is_success (f : String) (flt : Faults)
    (o : DeclaredResource) (e : ExternalState)
    (hdel : o.deletionRequested = true) (hfin : hasFinalizer f o = true)
    (hflt : flt.deleteTransient = false)
    (hgone : o.externalId = none ∨
      ∃ id, o.externalId = some id ∧ extLookup e id = none) :
    (reconcile f flt o e).result = .ok ∧
      hasFinalizer f (reconcile f flt o e).obj = false ∧
      (reconcile f flt o e).obj.externalId = none := by
  have hfin2 : f ∈ o.finalizers := by simpa [hasFinalizer] using hfin
  rcases hgone with hnone | ⟨id, hid, _⟩
  · refine ⟨?_, ?_, ?_⟩ <;>
      simp [reconcile, hdel, hfin2, hnone, hasFinalizer, List.mem_filter]
  · refine ⟨?_, ?_, ?_⟩ <;>
      simp [reconcile, hdel, hfin2, hid, hflt, hasFinalizer, List.mem_filter]

/-- C4 witness: deleting the sample whose externalId points at nothing
succeeds and clears the object. -/
theorem delete_notfound_is_success_witness :
    staleDeleteObj.deletionRequested = true ∧
      (reconcile "k8s.checklyhq.com/finalizer" noFaults staleDeleteObj
          emptyExt).result = .ok :=
  ⟨rfl,
    (delete_notfound_is_success "k8s.checklyhq.com/finalizer" noFaults staleDeleteObj
        emptyExt rfl (by decide) rfl (Or.inr ⟨"ext-9", rfl, rfl⟩)).1⟩

/-- A reconcile invocation preserves the finalizer-ordering guard: after
it, either our finalizer is on the object or no externalId is recorded. -/
theorem reconcile_preserves_guard (f : String) (flt : Faults) (o : DeclaredResource)
    (e : ExternalState) (h : finalizerGuard f o) :
    finalizerGuard f (reconcile f flt o e).obj := by
  unfold finalizerGuard reconcile
  unfold finalizerGuard at h
  repeat' split
  all_goals first
    | exact h
    | simp_all [hasFinalizer, List.mem_filter]

/-- Along any trace of reconcile invocations, author edits, deletion
requests, and store removals, every present state keeps the
finalizer-ordering guard. -/
theorem reach_preserves_guard (f : String) (o₀ : DeclaredResource)
    (e₀ : ExternalState) (h₀ : finalizerGuard f o₀) (s : SysState)
    (hs : Relation.ReflTransGen (SysStep f) (SysState.present o₀ e₀) s) :
    ∀ o e, s = SysState.present o e → finalizerGuard f o := by
  induction hs with
  | refl =>
    intro o e he
    cases he
    exact h₀
  | tail hab hbc ih =>
    intro o e he
    cases hbc with
    | recon flt o2 e2 =>
      cases he
      exact reconcile_preserves_guard f flt o2 e2 (ih o2 e2 rfl)
    | edit o2 e2 sp g =>
      cases he
      exact ih o2 _ rfl
    | requestDeletion o2 e2 =>
      cases he
      exact ih o2 _ rfl
    | remove o2 e2 hc =>
      cases he

/-- C2: from any initial state satisfying the guard (in particular a
fresh object with no externalId), `status.externalId` is already cleared
whenever the store step that makes the object absent fires, and an object
with deletion requested and the finalizer still present can never take
that removal step. -/
theorem finalizer_ordering (f : String) (o₀ : DeclaredResource) (e₀ : ExternalState)
    (h₀ : finalizerGuard f o₀) :
    (∀ o e e2,
        Relation.ReflTransGen (SysStep f) (SysState.present o₀ e₀)
          (SysState.present o e) →
        SysStep f (SysState.present o e) (SysState.absent e2) →
        o.externalId = none) ∧
    (∀ (o : DeclaredResource) (e e2 : ExternalState), hasFinalizer f o = true →
        ¬ SysStep f (SysState.present o e) (SysState.absent e2)) := by
  constructor
  · intro o e e2 hreach hstep
    have hg := reach_preserves_guard f o₀ e₀ h₀ _ hreach o e rfl
    cases hstep with
    | remove _ _ hc =>
      rcases hg with hf | hid
      · exfalso
        unfold canRemove at hc
        rw [hf] at hc
        simp at hc
      · exact hid
  · intro o e e2 hf hstep
    cases hstep with
    | remove _ _ hc =>
      unfold canRemove at hc
      rw [hf] at hc
      simp at hc

/-- C2 witness: a removable sample reached without steps is removed only
with its externalId already cleared. -/
theorem finalizer_ordering_witness :
    finalizerGuard "k8s.checklyhq.com/finalizer" removableObj ∧
      removableObj.externalId = none :=
  ⟨Or.inr rfl,
    (finalizer_ordering "k8s.checklyhq.com/finalizer" removableObj emptyExt
          (Or.inr rfl)).1
      removableObj emptyExt emptyExt Relation.ReflTransGen.refl
      (SysStep.remove removableObj emptyExt (by decide))⟩

/-! ## Theorems about the derived-resource synchronizer -/

/-- A successful owner-key lookup returns a pair of the list. -/
theorem lookupKey_mem {k : OwnerKey} {v : CheckSpec} :
    ∀ {l : List (OwnerKey × CheckSpec)}, lookupKey k l = some v → (k, v) ∈ l := by
  intro l
  induction l with
  | nil =>
    intro h
    exact absurd h (by simp [lookupKey])
  | cons p t ih =>
    obtain ⟨pk, pv⟩ := p
    intro h
    simp only [lookupKey] at h
    by_cases hk : pk = k
    · subst hk
      simp only [if_pos rfl] at h
      injection h with h
      subst h
      exact List.mem_cons_self _ _
    · simp only [if_neg hk] at h
      exact List.mem_cons_of_mem _ (ih h)

/-- A present owner key makes the lookup succeed. -/
theorem mem_lookupKey {k : OwnerKey} {v : CheckSpec} :
    ∀ {l : List (OwnerKey × CheckSpec)}, (k, v) ∈ l →
      ∃ w, lookupKey k l = some w := by
  intro l
  induction l with
  | nil =>
    intro h
    simp at h
  | cons p t ih =>
    obtain ⟨pk, pv⟩ := p
    intro h
    by_cases hk : pk = k
    · exact ⟨pv, by simp [lookupKey, hk]⟩
    · rcases List.mem_cons.mp h with heq | hmem
      · cases heq
        exact absurd rfl hk
      · obtain ⟨w, hw⟩ := ih hmem
        exact ⟨w, by simp [lookupKey, hk, hw]⟩

/-- C3: one synchronizer pass followed by quiescence (the marked-for-
deletion derived checks cleaned up by the reconcile loop) leaves a live
set whose owner-keys are exactly those in the image of the
AnnotationScanner over all present ingress objects — none extra, none
missing. -/
theorem derived_set_equality (domain : String) (ings : List IngressSource)
    (current : List DerivedCheck)
    (hlive : ∀ d ∈ current, d.deletionRequested = false) (k : OwnerKey) :
    (∃ d ∈ quiesce (syncStep domain ings current), d.owner = k) ↔
      ∃ sp, (k, sp) ∈ desiredDerived domain ings := by
  constructor
  · rintro ⟨d, hd, hk⟩
    simp only [quiesce, List.mem_filter] at hd
    obtain ⟨hmem, hnd⟩ := hd
    simp only [syncStep, List.mem_append, List.mem_map, List.mem_filter] at hmem
    rcases hmem with ⟨c, hc, hcd⟩ | ⟨p, ⟨hpdes, _⟩, hpd⟩
    · rcases hl : lookupKey c.owner (desiredDerived domain ings) with _ | sp
      · simp only [hl] at hcd
        rw [← hcd] at hnd
        simp at hnd
      · simp only [hl] at hcd
        have hko : c.owner = k := by
          rw [← hcd] at hk
          exact hk
        rw [hko] at hl
        exact ⟨sp, lookupKey_mem hl⟩
    · obtain ⟨p1, p2⟩ := p
      have hpk : p1 = k := by
        rw [← hpd] at hk
        exact hk
      subst hpk
      exact ⟨p2, hpdes⟩
  · rintro ⟨sp, hsp⟩
    by_cases hany : (current.any fun d2 => decide (d2.owner = k)) = true
    · rw [List.any_eq_true] at hany
      obtain ⟨c, hc, hck⟩ := hany
      have hck2 : c.owner = k := of_decide_eq_true hck
      obtain ⟨w, hw⟩ := mem_lookupKey hsp
      refine ⟨{ c with spec := w }, ?_, hck2⟩
      simp only [quiesce, List.mem_filter]
      constructor
      · simp only [syncStep, List.mem_append, List.mem_map]
        exact Or.inl ⟨c, hc, by rw [hck2, hw]⟩
      · simp [hlive c hc]
    · have hanyf : (current.any fun d2 => decide (d2.owner = k)) = false := by
        simpa using hany
      refine ⟨{ owner := k, spec := sp, deletionRequested := false }, ?_, rfl⟩
      simp only [quiesce, List.mem_filter]
      refine ⟨?_, rfl⟩
      simp only [syncStep, List.mem_append, List.mem_map, List.mem_filter]
      exact Or.inr ⟨(k, sp), ⟨hsp, by simp [hanyf]⟩, rfl⟩

/-- C3 witness: one enabled ingress with one rule and an empty current
set yields exactly the owner-key of that rule. -/
theorem derived_set_equality_witness :
    (∀ d ∈ ([] : List DerivedCheck), d.deletionRequested = false) ∧
      ((∃ d ∈ quiesce (syncStep "k8s.checklyhq.com" [ingB] []), d.owner = ownerB) ↔
        ∃ sp, (ownerB, sp) ∈ desiredDerived "k8s.checklyhq.com" [ingB]) :=
  ⟨by simp, derived_set_equality "k8s.checklyhq.com" [ingB] [] (by simp) ownerB⟩

end ChecklyOperator
